import Mathlib

/-!
Verification development for the pg-enhanced query-construction and
error-normalization layer.

The two cores embedded here are:
* the tagged-template SQL assembler of
  `src/sql/utils/parse-tagged-template.js` together with the escape-value
  protocol of `src/sql/clients/escape-clients.js`, and
* the error classifier of `src/models/utils/generate-db-error-message.js`
  with the status mapping of `src/models/errors.js`.

JavaScript values are modelled by the inductive `JsVal` (numbers as
integers), JavaScript objects by insertion-ordered association lists, and
thrown exceptions by `Except JsError`.  JavaScript regular expressions are
embedded by dedicated matching functions that implement the lazy
`(.+?)` semantics (shortest capture first, with backtracking, where `.`
does not match a line terminator) for the exact patterns that occur in the
source.
-/

namespace PgEnhanced

/-- Model of a JavaScript runtime value: strings, numbers (restricted to
integers), booleans, `null`, `undefined`, plain objects as
insertion-ordered association lists, and arrays. -/
inductive JsVal where
  | str (s : String)
  | num (n : Int)
  | bool (b : Bool)
  | null
  | undefined
  | obj (fields : List (String × JsVal))
  | arr (elems : List JsVal)

/-- The `typeof x === 'undefined'` test. -/
def isUndef : JsVal → Bool
  | .undefined => true
  | _ => false

/-- Decimal digit character for a value below ten. -/
def digitChar (n : Nat) : Char := Char.ofNat (48 + n)

/-- Fuel-driven most-significant-first decimal rendering of a natural
number; the fuel only serves to make the recursion structural. -/
def natCharsAux : Nat → Nat → List Char
  | 0, _ => []
  | fuel + 1, n =>
      if n < 10 then [digitChar n]
      else natCharsAux fuel (n / 10) ++ [digitChar (n % 10)]

/-- Decimal digits of a natural number. -/
def natChars (n : Nat) : List Char := natCharsAux (n + 1) n

/-- Decimal rendering of a natural number, as used for `$n` placeholders. -/
def jsNumStr (n : Nat) : String := ⟨natChars n⟩

/-- Decimal rendering of an integer (JavaScript number-to-string on
integral values). -/
def intStr (n : Int) : String :=
  if n < 0 then "-" ++ jsNumStr n.natAbs else jsNumStr n.natAbs

/-- JavaScript `Array.prototype.join`: concatenate with a separator. -/
def jsJoin (sep : String) : List String → String
  | [] => ""
  | [x] => x
  | x :: xs => x ++ sep ++ jsJoin sep xs

/-- The `pg.escapeIdentifier` utility: wrap in double quotes and double
every embedded double-quote character. -/
def escapeIdentifier (s : String) : String :=
  "\"" ++ ⟨s.data.foldr (fun c acc => if c = '"' then '"' :: '"' :: acc else c :: acc) []⟩ ++ "\""

/-- JSON escaping of one character inside a string literal. -/
def jsonEscChar (c : Char) : List Char :=
  if c = '"' then ['\\', '"']
  else if c = '\\' then ['\\', '\\']
  else if c = '\n' then ['\\', 'n']
  else if c = '\r' then ['\\', 'r']
  else if c = '\t' then ['\\', 't']
  else [c]

/-- JSON rendering of a string literal. -/
def jsonStrLit (s : String) : String :=
  "\"" ++ ⟨s.data.foldr (fun c acc => jsonEscChar c ++ acc) []⟩ ++ "\""

mutual

/-- The `JSON.stringify` serialization; object fields whose value is
`undefined` are dropped, `undefined` array elements render as `null`. -/
def jsonStringify : JsVal → String
  | .str s => jsonStrLit s
  | .num n => intStr n
  | .bool b => if b then "true" else "false"
  | .null => "null"
  | .undefined => "null"
  | .obj fields => "\x7b" ++ jsJoin "," (jsonFields fields) ++ "\x7d"
  | .arr elems => "[" ++ jsJoin "," (jsonElems elems) ++ "]"

/-- JSON rendering of the fields of an object, dropping `undefined`. -/
def jsonFields : List (String × JsVal) → List String
  | [] => []
  | (k, v) :: rest =>
      if isUndef v then jsonFields rest
      else (jsonStrLit k ++ ":" ++ jsonStringify v) :: jsonFields rest

/-- JSON rendering of the elements of an array. -/
def jsonElems : List JsVal → List String
  | [] => []
  | v :: rest => jsonStringify v :: jsonElems rest

end

/-- Interpolating `JSON.stringify(x)` into a template literal: a
top-level `undefined` stringifies to `undefined` and is then coerced to
the text `undefined`. -/
def jsonStringifyTop (v : JsVal) : String :=
  match v with
  | .undefined => "undefined"
  | _ => jsonStringify v

/-- JavaScript truthiness of a modelled value. -/
def jsTruthy : JsVal → Bool
  | .str s => s ≠ ""
  | .num n => n ≠ 0
  | .bool b => b
  | .null => false
  | .undefined => false
  | .obj _ => true
  | .arr _ => true

mutual

/-- JavaScript string coercion (`String(x)`): arrays join their coerced
elements with commas, `null` and `undefined` elements coerce to the empty
string inside an array, plain objects coerce to `[object Object]`. -/
def jsCoerce : JsVal → String
  | .str s => s
  | .num n => intStr n
  | .bool b => if b then "true" else "false"
  | .null => "null"
  | .undefined => "undefined"
  | .obj _ => "[object Object]"
  | .arr elems => jsJoin "," (jsCoerceElems elems)

/-- Coercion of array elements for `jsCoerce`. -/
def jsCoerceElems : List JsVal → List String
  | [] => []
  | .null :: rest => "" :: jsCoerceElems rest
  | .undefined :: rest => "" :: jsCoerceElems rest
  | v :: rest => jsCoerce v :: jsCoerceElems rest

end

/-- A thrown JavaScript exception. -/
inductive JsError where
  | typeError (msg : String)
deriving DecidableEq

/-- One interpolation slot of the tagged template: either a raw
JavaScript value or one of the escape-client wrappers from
`escape-clients.js`.  An escape wrapper whose stored payload is
`undefined` is modelled with a `none` payload. -/
inductive Arg where
  | raw (v : JsVal)
  | andDictionary (value : Option (List (String × JsVal)))
  | arrayParameters (value : Option (List JsVal))
  | dictionary (value : Option (List (String × JsVal)))
  | identifier (value : Option (String ⊕ List String))
  | parameter (value : Option JsVal)
  | keysAndValues (value : Option (List (String × JsVal) ⊕ List (List (String × JsVal))))
  | keysAndValuesWithExpiresIn (value : Option (List (String × JsVal)))

/-- The parsed query config produced by `parseTaggedTemplate`, with
`values` explicitly absent when no parameter was bound. -/
structure QueryConfig where
  text : String
  values : Option (List JsVal)

/-- The `EscapeAndDictionary` loop of `parse-tagged-template.js`
(lines 44-58): for each key whose value is defined, push the value and
emit an `AND` clause numbered by the new length of `values`. -/
def andDictLoop : List (String × JsVal) → List JsVal → List String → List JsVal × List String
  | [], values, dictStrings => (values, dictStrings)
  | (key, value) :: rest, values, dictStrings =>
      if isUndef value then andDictLoop rest values dictStrings
      else
        andDictLoop rest (values ++ [value])
          (dictStrings ++ [" AND " ++ escapeIdentifier key ++ "=$" ++ jsNumStr (values.length + 1)])

/-- The `EscapeArrayParameters` loop (lines 64-70): push each array
element and emit a placeholder numbered by the new length of `values`. -/
def arrayParamsLoop : List JsVal → List JsVal → List String → List JsVal × List String
  | [], values, paramIndexes => (values, paramIndexes)
  | value :: rest, values, paramIndexes =>
      arrayParamsLoop rest (values ++ [value])
        (paramIndexes ++ ["$" ++ jsNumStr (values.length + 1)])

/-- The `EscapeDictionary` loop (lines 78-84): push every value
(`undefined` included) and emit a `key=$n` clause numbered by the new
length of `values`. -/
def dictLoop : List (String × JsVal) → List JsVal → List String → List JsVal × List String
  | [], values, dictStrings => (values, dictStrings)
  | (key, value) :: rest, values, dictStrings =>
      dictLoop rest (values ++ [value])
        (dictStrings ++ [escapeIdentifier key ++ "=$" ++ jsNumStr (values.length + 1)])

/-- JavaScript property read `argValue[key]` on an object modelled as an
association list: `undefined` when the key is missing. -/
def jsGet (fields : List (String × JsVal)) (key : String) : JsVal :=
  (fields.lookup key).getD JsVal.undefined

/-- The `EscapeKeysAndValues` row loop (lines 118-123): accumulate the
row values in first-row key order and one placeholder group per row,
numbered locally as `groups * keys + i + 1`. -/
def kvLoop (keys : List String) :
    List (List (String × JsVal)) → List JsVal → List (List String) →
    List JsVal × List (List String)
  | [], rowValues, paramIndexGroups => (rowValues, paramIndexGroups)
  | argValue :: rest, rowValues, paramIndexGroups =>
      kvLoop keys rest (rowValues ++ keys.map (fun key => jsGet argValue key))
        (paramIndexGroups ++
          [(List.range keys.length).map
            (fun i => "$" ++ jsNumStr (paramIndexGroups.length * keys.length + i + 1))])

/-- Drop every binding of the given key, modelling a `delete` on a
JavaScript object. -/
def jsDelete (fields : List (String × JsVal)) (key : String) : List (String × JsVal) :=
  fields.filter (fun kv => kv.1 ≠ key)

/-- Process a single interpolation, given the `values` list bound so far:
returns the text appended for the interpolation and the updated `values`
list, or the exception the original code would throw.  This is the body
of the `strings.forEach` callback of `parse-tagged-template.js`
(lines 33-177) for one slot. -/
def processArg (arg : Arg) (values : List JsVal) : Except JsError (String × List JsVal) :=
  match arg with
  | .raw .undefined => .ok ("", values)
  | .raw (.str s) => .ok (s, values)
  | .raw (.num n) => .ok (intStr n, values)
  | .raw (.bool b) => .ok ((if b then "true" else "false"), values)
  | .raw v => .ok (jsonStringify v, values)
  | .andDictionary none => .ok ("", values)
  | .andDictionary (some dictionary) =>
      let r := andDictLoop dictionary values []
      .ok (String.join r.2, r.1)
  | .arrayParameters none => .ok ("", values)
  | .arrayParameters (some arr) =>
      let r := arrayParamsLoop arr values []
      .ok ("ARRAY[" ++ jsJoin ", " r.2 ++ "]", r.1)
  | .dictionary none => .ok ("", values)
  | .dictionary (some dictionary) =>
      let r := dictLoop dictionary values []
      .ok (jsJoin ", " r.2, r.1)
  | .identifier none => .ok ("", values)
  | .identifier (some (.inl v)) => .ok (escapeIdentifier v, values)
  | .identifier (some (.inr vs)) => .ok (jsJoin ", " (vs.map escapeIdentifier), values)
  | .parameter none => .ok ("", values)
  | .parameter (some v) => .ok ("$" ++ jsNumStr (values ++ [v]).length, values ++ [v])
  | .keysAndValues none => .ok ("", values)
  | .keysAndValues (some payload) =>
      let argValues := match payload with
        | .inl single => [single]
        | .inr many => many
      match argValues with
      | [] => .error (.typeError "Cannot convert undefined or null to object")
      | first :: _ =>
          let keys := first.map Prod.fst
          let rowKeys := keys.map escapeIdentifier
          let r := kvLoop keys argValues [] []
          let groups := r.2.map (fun g => "(" ++ jsJoin "," g ++ ")")
          .ok ("(" ++ jsJoin "," rowKeys ++ ") VALUES " ++ jsJoin "," groups,
            values ++ r.1)
  | .keysAndValuesWithExpiresIn none => .ok ("", values)
  | .keysAndValuesWithExpiresIn (some value) =>
      let expiresInVal := jsGet value "expiresIn"
      let argValue :=
        if jsTruthy expiresInVal then
          jsDelete (jsDelete (jsDelete value "expiresIn") "expiresAt") "expiresAtEpoch"
        else value
      let keys := argValue.map Prod.fst
      let rowKeys := keys.map escapeIdentifier
      let rowValues := keys.map (fun key => jsGet argValue key)
      let index := keys.length
      let paramIndexes := (List.range keys.length).map (fun i => "$" ++ jsNumStr (i + 1))
      if jsTruthy expiresInVal then
        let rowKeys := rowKeys ++ [escapeIdentifier "expiresAt", escapeIdentifier "expiresAtEpoch"]
        let rowValues := rowValues ++ [expiresInVal, expiresInVal]
        let paramIndexes := paramIndexes ++
          ["now() + $" ++ jsNumStr (index + 1) ++ "::interval SECOND",
           "FLOOR(EXTRACT(EPOCH FROM NOW())) + $" ++ jsNumStr (index + 2)]
        .ok ("(" ++ jsJoin ", " rowKeys ++ ") VALUES (" ++ jsJoin ", " paramIndexes ++ ")",
          values ++ rowValues)
      else
        .ok ("(" ++ jsJoin ", " rowKeys ++ ") VALUES (" ++ jsJoin ", " paramIndexes ++ ")",
          values ++ rowValues)

/-- The `strings.forEach` accumulation of `parseTaggedTemplate`: walk the
string segments, appending each, and process the interpolation at the
same index when one exists (a missing entry is JavaScript `undefined` and
is skipped). -/
def parseLoop : List String → List Arg → String → List JsVal → Except JsError (String × List JsVal)
  | [], _, text, values => .ok (text, values)
  | stringSegment :: segs, args, text, values =>
      match args with
      | [] => parseLoop segs [] (text ++ stringSegment) values
      | arg :: rest =>
          match processArg arg values with
          | .error e => .error e
          | .ok (argText, values') =>
              parseLoop segs rest (text ++ stringSegment ++ argText) values'

/-- The `parseTaggedTemplate` entry point: run the accumulation from an
empty text and empty `values` and build the query config, with `values`
set to `undefined` (absent) when the list is empty. -/
def parseTaggedTemplate (strings : List String) (args : List Arg) : Except JsError QueryConfig :=
  match parseLoop strings args "" [] with
  | .error e => .error e
  | .ok (text, values) =>
      .ok { text := text, values := if values.length ≠ 0 then some values else none }

/-- A JavaScript regular-expression line terminator, which `.` does not
match (the astral terminators U+2028 and U+2029 are not modelled). -/
def isLineTerm (c : Char) : Bool := c = '\n' || c = '\r'

/-- Lazy group matching for `(.+?)` followed by the literal `L`:
try capture lengths in increasing order, where every captured character
must match `.`; on each candidate split run the continuation `k` on the
capture and the text after the literal, backtracking to a longer capture
when `k` fails.  This is the JavaScript semantics of a lazy group inside
a regular expression. -/
def lazyUntilAux (L : List Char) (acc : List Char) (s : List Char)
    (k : List Char → List Char → Option α) : Option α :=
  match s with
  | [] => none
  | c :: rest =>
      if isLineTerm c then none
      else
        match (if L.isPrefixOf rest then k (acc ++ [c]) (rest.drop L.length) else none) with
        | some r => some r
        | none => lazyUntilAux L (acc ++ [c]) rest k

/-- Lazy group matching starting from an empty capture. -/
def lazyUntil (L : List Char) (s : List Char)
    (k : List Char → List Char → Option α) : Option α :=
  lazyUntilAux L [] s k

/-- Matching for a final `(.+?)$`: the capture is forced to be the whole
remaining text, which must be nonempty and free of line terminators. -/
def lazyToEnd (s : List Char) : Option (List Char) :=
  if s ≠ [] ∧ s.all (fun c => !isLineTerm c) then some s else none

/-- The `deleteFkRegex` of `generate-db-error-message.js`: matches
`update or delete on table "(.+?)" violates foreign key constraint
"(.+?)" on table "(.+?)"` anchored on both sides, returning the three
captures. -/
def deleteFkExec (s : String) : Option (String × String × String) :=
  let p := "update or delete on table \"".data
  if p.isPrefixOf s.data then
    lazyUntil "\" violates foreign key constraint \"".data (s.data.drop p.length) (fun a r1 =>
      lazyUntil "\" on table \"".data r1 (fun b r2 =>
        lazyUntil "\"".data r2 (fun c r3 =>
          if r3 = [] then some (⟨a⟩, ⟨b⟩, ⟨c⟩) else none)))
  else none

/-- The `insertFkRegex`: matches `insert or update on table "(.+?)"
violates foreign key constraint "(.+?)"` anchored on both sides. -/
def insertFkExec (s : String) : Option (String × String) :=
  let p := "insert or update on table \"".data
  if p.isPrefixOf s.data then
    lazyUntil "\" violates foreign key constraint \"".data (s.data.drop p.length) (fun a r1 =>
      lazyUntil "\"".data r1 (fun b r2 =>
        if r2 = [] then some (⟨a⟩, ⟨b⟩) else none))
  else none

/-- The `duplicateKeyRegex`: matches `duplicate key value violates
unique constraint "(.+?)"` anchored on both sides. -/
def duplicateKeyExec (s : String) : Option String :=
  let p := "duplicate key value violates unique constraint \"".data
  if p.isPrefixOf s.data then
    lazyUntil "\"".data (s.data.drop p.length) (fun a r1 =>
      if r1 = [] then some ⟨a⟩ else none)
  else none

/-- The `tooLongRegex`: matches `value too long for type (.+?)` anchored
on both sides. -/
def tooLongExec (s : String) : Option String :=
  let p := "value too long for type ".data
  if p.isPrefixOf s.data then
    match lazyToEnd (s.data.drop p.length) with
    | some a => some ⟨a⟩
    | none => none
  else none

/-- The `missingRelationRegex`: matches `relation "(.+?)" does not
exist` anchored on both sides. -/
def missingRelationExec (s : String) : Option String :=
  let p := "relation \"".data
  if p.isPrefixOf s.data then
    lazyUntil "\" does not exist".data (s.data.drop p.length) (fun a r1 =>
      if r1 = [] then some ⟨a⟩ else none)
  else none

/-- The `nullValuesRegex`: matches `null value in column "(.+?)"
violates not-null constraint` anchored on both sides. -/
def nullValuesExec (s : String) : Option String :=
  let p := "null value in column \"".data
  if p.isPrefixOf s.data then
    lazyUntil "\" violates not-null constraint".data (s.data.drop p.length) (fun a r1 =>
      if r1 = [] then some ⟨a⟩ else none)
  else none

/-- One attempt of the unanchored query-analysis pattern
`(UPDATE|INSERT).+?"(.+?)"` at a fixed start position: try the verbs in
alternation order, then a lazy gap up to a double quote, then a lazy
capture up to the next double quote. -/
def analyzeAt (s : List Char) : Option (String × String) :=
  let tryVerb := fun (verb : String) =>
    if verb.data.isPrefixOf s then
      lazyUntil "\"".data (s.drop verb.data.length) (fun _ r1 =>
        lazyUntil "\"".data r1 (fun b _ => some (verb, (⟨b⟩ : String))))
    else none
  match tryVerb "UPDATE" with
  | some r => some r
  | none => tryVerb "INSERT"

/-- Leftmost search for the unanchored query-analysis pattern. -/
def analyzeSearch : List Char → Option (String × String)
  | [] => none
  | c :: rest =>
      match analyzeAt (c :: rest) with
      | some r => some r
      | none => analyzeSearch rest

/-- The secondary pattern of the value-too-long rule, run over the query
text: `(UPDATE|INSERT).+?"(.+?)"`, unanchored. -/
def analyzeQueryExec (s : String) : Option (String × String) :=
  analyzeSearch s.data

/-- JavaScript `String.prototype.split` with a single-character
separator. -/
def jsSplit (sep : Char) : List Char → List (List Char)
  | [] => [[]]
  | c :: rest =>
      let r := jsSplit sep rest
      if c = sep then [] :: r
      else
        match r with
        | h :: t => (c :: h) :: t
        | [] => [[c]]

/-- The `getQueryMethod` helper: split the query string on the space
character, discard tokens of length at most one, and take the first
remaining token (JavaScript `[0]` on an empty array is `undefined`,
modelled as `none`). -/
def getQueryMethod (queryString : String) : Option String :=
  (((jsSplit ' ' queryString.data).map (fun l => (⟨l⟩ : String))).filter
    (fun s => s.length > 1)).head?

/-- Template-literal interpolation of a possibly-`undefined` string. -/
def optText (o : Option String) : String := o.getD "undefined"

/-- The query with newline characters stripped, as in
`errorQuery.replace(/\n/g, '')`. -/
def stripNewlines (s : String) : String := ⟨s.data.filter (fun c => c ≠ '\n')⟩

/-- The classifier input: a `pg` `DatabaseError` augmented (or not) with
the attempted query and parameters.  Absent fields are `none`. -/
structure DatabaseErrorInput where
  message : String
  detail : Option String
  table : Option String
  query : Option String
  parameters : Option (List JsVal)
  args : JsVal

/-- The classifier output record. -/
structure GenerateDbErrorMessageResults where
  message : String
  isTimeoutError : Bool
  isTooManyConnectionsError : Bool
deriving DecidableEq

/-- The default fallback result of `generateDbErrorMessage` (lines
45-49): the generic message embedding the raw message and detail, with
both flags false. -/
def defaultResults (error : DatabaseErrorInput) : GenerateDbErrorMessageResults :=
  { message := "Unrecognized Database Error: " ++ error.message ++ ". Detail: " ++ optText error.detail,
    isTimeoutError := false,
    isTooManyConnectionsError := false }

/-- The `generateDbErrorMessage` classifier: the ordered rule chain of
`generate-db-error-message.js`.  `query` and `table` are defaulted to
the empty string; `parameters` is not defaulted, so the rules that read
`errorParameters[0]` throw a `TypeError` when `parameters` is absent,
which the `Except` models. -/
def generateDbErrorMessage (error : DatabaseErrorInput) :
    Except JsError GenerateDbErrorMessageResults :=
  let errorDetail := error.detail
  let errorMessage := error.message
  let errorParameters := error.parameters
  let errorQuery := error.query.getD ""
  let errorTable := error.table.getD ""
  let results := defaultResults error
  if errorMessage = "sorry, too many clients already" then
    .ok { results with
      message := "Too many database connections, try again later. Running query: " ++
        stripNewlines errorQuery,
      isTooManyConnectionsError := true }
  else if errorMessage = "Query read timeout" then
    .ok { results with
      message := "Query timed out. Running query: " ++ stripNewlines errorQuery,
      isTimeoutError := true }
  else
    match deleteFkExec errorMessage with
    | some (touchedTable, _, _) =>
        .ok { results with
          message := "Could not " ++ optText (getQueryMethod errorQuery) ++ " item from \"" ++
            touchedTable ++ "\" table. Detail: " ++ optText errorDetail }
    | none =>
    match insertFkExec errorMessage with
    | some (touchedTable, _) =>
        match errorParameters with
        | none => .error (.typeError "Cannot read properties of undefined (reading 0)")
        | some ps =>
            let itemId := ps.getD 0 JsVal.undefined
            .ok { results with
              message := "Could not " ++ optText (getQueryMethod errorQuery) ++ " item \"" ++
                jsCoerce itemId ++ "\" into \"" ++ touchedTable ++ "\" table. Detail: " ++
                optText errorDetail }
    | none =>
    match duplicateKeyExec errorMessage with
    | some _ =>
        match errorParameters with
        | none => .error (.typeError "Cannot read properties of undefined (reading 0)")
        | some ps =>
            let itemId0 := ps.getD 0 JsVal.undefined
            let itemIdText :=
              match itemId0 with
              | .null => jsonStringify .null
              | .obj fields => jsonStringify (.obj fields)
              | .arr elems => jsonStringify (.arr elems)
              | v => jsCoerce v
            .ok { results with
              message := "Could not " ++ optText (getQueryMethod errorQuery) ++ " item \"" ++
                itemIdText ++ "\" into \"" ++ errorTable ++ "\" table. Detail: " ++
                optText errorDetail }
    | none =>
    match tooLongExec errorMessage with
    | some dataType =>
        match analyzeQueryExec errorQuery with
        | none => .ok results
        | some (queryMethod, touchedTable) =>
            .ok { results with
              message := "Could not " ++ queryMethod ++ " item into \"" ++ touchedTable ++
                "\" table. A value is too long for db type \"" ++ dataType ++ "\"." }
    | none =>
    match missingRelationExec errorMessage with
    | some touchedTable =>
        .ok { results with
          message := "Could not perform " ++ optText (getQueryMethod errorQuery) ++
            " operation on missing table \"" ++ touchedTable ++ "\"." }
    | none =>
    match nullValuesExec errorMessage with
    | some badColumn =>
        .ok { results with
          message := "Could not " ++ optText (getQueryMethod errorQuery) ++ " item in \"" ++
            errorTable ++ "\" table. Unexpected null value for \"" ++ badColumn ++ "\" column." }
    | none =>
    if errorMessage = "UNDEFINED_VALUE: Undefined values are not allowed" then
      .ok { results with
        message := "Unexpected undefined value applying data to database. Args: " ++
          jsonStringifyTop error.args ++ "." }
    else
      .ok results

/-- Occurrence of `sub` as a contiguous run inside a character list. -/
def hasInfix (sub : List Char) : List Char → Bool
  | [] => sub.isEmpty
  | c :: rest => sub.isPrefixOf (c :: rest) || hasInfix sub rest

/-- JavaScript `String.prototype.includes`. -/
def jsIncludes (s sub : String) : Bool := hasInfix sub.data s.data

/-- Observable state of a constructed `DBError`: its message and HTTP
status code. -/
structure DBErrorView where
  message : String
  statusCode : Nat
deriving DecidableEq

/-- The `DBError` constructor of `models/errors.js` on a fresh error
(the copy branch for an existing `DBError` is not modelled):
non-database errors whose message is neither timeout-shaped nor
undefined-value-shaped keep their message and the default 400 status;
otherwise the error is classified and the status is elevated to 429
exactly when the classifier set one of the two retryable flags. -/
def mkDBError (originalError : DatabaseErrorInput) (isDatabaseError : Bool) :
    Except JsError DBErrorView :=
  let couldBeTimeoutError := jsIncludes originalError.message "Query read timeout"
  let couldBeUndefinedError := jsIncludes originalError.message "UNDEFINED_VALUE"
  if !isDatabaseError && !couldBeTimeoutError && !couldBeUndefinedError then
    .ok { message := originalError.message, statusCode := 400 }
  else
    match generateDbErrorMessage originalError with
    | .error e => .error e
    | .ok r =>
        .ok { message := r.message
              statusCode := if r.isTimeoutError || r.isTooManyConnectionsError then 429 else 400 }

/-- State of the positional-placeholder scanner: outside any
placeholder, just after a dollar sign, or inside the digits of a
placeholder with the value accumulated so far. -/
inductive ScanSt where
  | start
  | dollar
  | num (n : Nat)

/-- Scanner accumulation: read the text left to right and collect every
`$n` placeholder (a dollar sign followed by at least one decimal digit)
as the number `n`, in order of appearance. -/
def phsAux : ScanSt → List Char → List Nat
  | .num n, [] => [n]
  | _, [] => []
  | .num n, c :: rest =>
      if c.isDigit then phsAux (.num (n * 10 + (c.toNat - 48))) rest
      else if c = '$' then n :: phsAux .dollar rest
      else n :: phsAux .start rest
  | .dollar, c :: rest =>
      if c.isDigit then phsAux (.num (c.toNat - 48)) rest
      else if c = '$' then phsAux .dollar rest
      else phsAux .start rest
  | .start, c :: rest =>
      if c = '$' then phsAux .dollar rest
      else phsAux .start rest

/-- The ordered list of positional placeholders `$n` occurring in a
text. -/
def phs (s : List Char) : List Nat := phsAux .start s

/-- Decimal value accumulated over a digit list. -/
def digitsVal (l : List Char) (acc : Nat) : Nat :=
  l.foldl (fun a c => a * 10 + (c.toNat - 48)) acc

/-- A character list that does not begin with a decimal digit. -/
def noLeadDigit (l : List Char) : Bool :=
  match l with
  | [] => true
  | c :: _ => !c.isDigit

/-- A template fragment that neither contains a dollar sign nor begins
with a decimal digit, so that it cannot create or extend a positional
placeholder in the assembled text. -/
def cleanFrag (s : String) : Bool :=
  s.data.all (fun c => c ≠ '$') && noLeadDigit s.data

/-- The interpolations that number their placeholders with the current
length of `values` after the push: `Parameter` and `ArrayParameters`
with a present payload. -/
def gapFreeArg : Arg → Bool
  | .parameter (some _) => true
  | .arrayParameters (some _) => true
  | _ => false

/-- An escape wrapper whose payload is absent (`undefined`). -/
def emptyEscape : Arg → Bool
  | .andDictionary none => true
  | .arrayParameters none => true
  | .dictionary none => true
  | .identifier none => true
  | .parameter none => true
  | .keysAndValues none => true
  | .keysAndValuesWithExpiresIn none => true
  | _ => false

/-- A primitive JavaScript value in the sense of the raw-interpolation
contract: string, number, boolean or `null`. -/
def isPrim : JsVal → Bool
  | .str _ => true
  | .num _ => true
  | .bool _ => true
  | .null => true
  | _ => false

/-- Specified literal text form of a primitive value: strings verbatim,
numbers in decimal, booleans as `true`/`false`, `null` as `null`. -/
def primText : JsVal → String
  | .str s => s
  | .num n => intStr n
  | .bool b => if b then "true" else "false"
  | .null => "null"
  | _ => ""

/-- Specified clause list for an `AndDictionary` rendered after `n`
values are already bound: one ` AND "key"=$i` clause per key whose value
is defined, numbered consecutively from `n + 1`; keys with `undefined`
values contribute nothing. -/
def andClausesSpec (n : Nat) : List (String × JsVal) → List String
  | [] => []
  | (k, v) :: rest =>
      if isUndef v then andClausesSpec n rest
      else (" AND " ++ escapeIdentifier k ++ "=$" ++ jsNumStr (n + 1)) :: andClausesSpec (n + 1) rest

/-- Specified clause list for a `Dictionary` rendered after `n` values
are already bound: one `"key"=$i` clause per key, `undefined` values
included, numbered consecutively from `n + 1`. -/
def dictClausesSpec (n : Nat) : List (String × JsVal) → List String
  | [] => []
  | (k, _) :: rest =>
      (escapeIdentifier k ++ "=$" ++ jsNumStr (n + 1)) :: dictClausesSpec (n + 1) rest

/-- Join character lists with a separator character. -/
def joinChar (sep : Char) : List (List Char) → List Char
  | [] => []
  | [x] => x
  | x :: xs => x ++ sep :: joinChar sep xs

/-- C4: for every assemble input, the `values` field of the resulting
query config is the constructed parameter list exactly when that list is
nonempty, and is absent (never an empty list) when no parameters were
bound. -/
theorem c4_values_absent_never_empty (strings : List String) (args : List Arg)
    (cfg : QueryConfig) (h : parseTaggedTemplate strings args = .ok cfg) :
    cfg.values ≠ some [] ∧
      ∀ text values, parseLoop strings args "" [] = .ok (text, values) →
        cfg.text = text ∧ cfg.values = if values.isEmpty then none else some values := by
  unfold parseTaggedTemplate at h
  cases hpl : parseLoop strings args "" [] with
  | error e => rw [hpl] at h; exact absurd h (by simp)
  | ok tv =>
      obtain ⟨text, values⟩ := tv
      rw [hpl] at h
      simp only [Except.ok.injEq] at h
      subst h
      refine ⟨?_, ?_⟩
      · cases values with
        | nil => simp
        | cons v vs => simp
      · intro t v hv
        simp only [Except.ok.injEq, Prod.mk.injEq] at hv
        obtain ⟨ht, hvv⟩ := hv
        subst ht; subst hvv
        cases values with
        | nil => simp
        | cons v vs => simp [List.isEmpty]

/-- Witness for C4 at a concrete input with no bound parameter. -/
theorem c4_witness :
    (⟨"a", none⟩ : QueryConfig).values ≠ some [] :=
  (c4_values_absent_never_empty ["a"] [] ⟨"a", none⟩ rfl).1

/-- C5: a primitive interpolation (string, number, boolean, null)
passed raw appends its literal text form to the output and leaves the
`values` list unchanged, so a template with a single raw primitive
assembles to the surrounding fragments with the literal in between and
an absent `values`. -/
theorem c5_raw_primitive_literal (v : JsVal) (hv : isPrim v = true) :
    (∀ values, processArg (.raw v) values = .ok (primText v, values)) ∧
      ∀ s1 s2, parseTaggedTemplate [s1, s2] [.raw v] =
        .ok ⟨s1 ++ primText v ++ s2, none⟩ := by
  cases v with
  | str s =>
      refine ⟨fun values => rfl, fun s1 s2 => ?_⟩
      simp [parseTaggedTemplate, parseLoop, processArg, primText, String.append_assoc]
  | num n =>
      refine ⟨fun values => rfl, fun s1 s2 => ?_⟩
      simp [parseTaggedTemplate, parseLoop, processArg, primText, String.append_assoc]
  | bool b =>
      refine ⟨fun values => rfl, fun s1 s2 => ?_⟩
      simp [parseTaggedTemplate, parseLoop, processArg, primText, String.append_assoc]
  | null =>
      refine ⟨fun values => rfl, fun s1 s2 => ?_⟩
      simp [parseTaggedTemplate, parseLoop, processArg, primText, jsonStringify,
        String.append_assoc]
  | undefined => simp [isPrim] at hv
  | obj fields => simp [isPrim] at hv
  | arr elems => simp [isPrim] at hv

/-- Witness for C5: the spec example, interpolating the raw number five. -/
theorem c5_witness :
    parseTaggedTemplate ["SELECT * FROM t WHERE id = ", ""] [.raw (.num 5)] =
      .ok ⟨"SELECT * FROM t WHERE id = " ++ primText (.num 5) ++ "", none⟩ :=
  (c5_raw_primitive_literal (.num 5) rfl).2 "SELECT * FROM t WHERE id = " ""

/-- Processing an empty `KeysAndValues` array payload throws the
`Object.keys(undefined)` type error. -/
theorem processArg_kvEmpty (values : List JsVal) :
    processArg (.keysAndValues (some (.inr []))) values =
      .error (.typeError "Cannot convert undefined or null to object") := rfl

/-- Once the walk reaches an empty-array `KeysAndValues` interpolation,
the whole accumulation throws. -/
theorem parseLoop_kvEmpty_error :
    ∀ (segs1 : List String) (args1 : List Arg), args1.length = segs1.length →
      ∀ (s : String) (segs2 : List String) (args2 : List Arg) (text : String)
        (values : List JsVal),
        ∃ e, parseLoop (segs1 ++ s :: segs2)
          (args1 ++ .keysAndValues (some (.inr [])) :: args2) text values = .error e := by
  intro segs1
  induction segs1 with
  | nil =>
      intro args1 hlen s segs2 args2 text values
      simp only [List.length_nil, List.length_eq_zero] at hlen
      subst hlen
      exact ⟨_, rfl⟩
  | cons s0 rest ih =>
      intro args1 hlen s segs2 args2 text values
      cases args1 with
      | nil => simp at hlen
      | cons a arest =>
          simp only [List.length_cons, Nat.succ.injEq] at hlen
          simp only [List.cons_append, parseLoop]
          cases hpa : processArg a values with
          | error e => exact ⟨e, rfl⟩
          | ok tv => exact ih arest hlen s segs2 args2 _ tv.2

/-- C9: assembling any template containing a `KeysAndValues`
interpolation with an empty array payload throws synchronously, and in
particular never returns a query config. -/
theorem c9_keysAndValues_empty_array_throws (segs1 : List String) (s : String)
    (segs2 : List String) (args1 args2 : List Arg)
    (hlen : args1.length = segs1.length) (cfg : QueryConfig) :
    parseTaggedTemplate (segs1 ++ s :: segs2)
      (args1 ++ .keysAndValues (some (.inr [])) :: args2) ≠ .ok cfg := by
  intro h
  obtain ⟨e, he⟩ := parseLoop_kvEmpty_error segs1 args1 hlen s segs2 args2 "" []
  unfold parseTaggedTemplate at h
  rw [he] at h
  exact absurd h (by simp)

/-- Witness for C9 at a concrete template. -/
theorem c9_witness :
    parseTaggedTemplate ["INSERT INTO t ", ""] [.keysAndValues (some (.inr []))] ≠
      .ok ⟨"INSERT INTO t () VALUES ()", none⟩ :=
  c9_keysAndValues_empty_array_throws [] "INSERT INTO t " [""] [] [] rfl _

/-- An escape wrapper with an absent payload is processed to the empty
string and leaves `values` untouched. -/
theorem processArg_emptyEscape (a : Arg) (ha : emptyEscape a = true)
    (values : List JsVal) : processArg a values = .ok ("", values) := by
  cases a with
  | raw v => simp [emptyEscape] at ha
  | andDictionary o => cases o with
      | none => rfl
      | some d => simp [emptyEscape] at ha
  | arrayParameters o => cases o with
      | none => rfl
      | some d => simp [emptyEscape] at ha
  | dictionary o => cases o with
      | none => rfl
      | some d => simp [emptyEscape] at ha
  | identifier o => cases o with
      | none => rfl
      | some d => simp [emptyEscape] at ha
  | parameter o => cases o with
      | none => rfl
      | some d => simp [emptyEscape] at ha
  | keysAndValues o => cases o with
      | none => rfl
      | some d => simp [emptyEscape] at ha
  | keysAndValuesWithExpiresIn o => cases o with
      | none => rfl
      | some d => simp [emptyEscape] at ha

/-- Dropping an empty-payload escape and merging its surrounding
fragments does not change the accumulation. -/
theorem parseLoop_merge (a : Arg) (ha : emptyEscape a = true)
    (s1 s2 : String) (segs : List String) (args : List Arg)
    (text : String) (values : List JsVal) :
    parseLoop (s1 :: s2 :: segs) (a :: args) text values =
      parseLoop ((s1 ++ s2) :: segs) args text values := by
  simp only [parseLoop, processArg_emptyEscape a ha values]
  cases args with
  | nil => simp [parseLoop, String.append_assoc]
  | cons a' rest =>
      cases hpa : processArg a' values with
      | error e => simp [parseLoop, hpa]
      | ok tv => simp [parseLoop, hpa, String.append_assoc]

/-- Loop form of the omission equivalence, at an arbitrary position. -/
theorem parseLoop_omit :
    ∀ (segs1 : List String) (args1 : List Arg), args1.length = segs1.length →
      ∀ (a : Arg), emptyEscape a = true →
      ∀ (s1 s2 : String) (segs2 : List String) (args2 : List Arg)
        (text : String) (values : List JsVal),
        parseLoop (segs1 ++ s1 :: s2 :: segs2) (args1 ++ a :: args2) text values =
          parseLoop (segs1 ++ (s1 ++ s2) :: segs2) (args1 ++ args2) text values := by
  intro segs1
  induction segs1 with
  | nil =>
      intro args1 hlen a ha s1 s2 segs2 args2 text values
      simp only [List.length_nil, List.length_eq_zero] at hlen
      subst hlen
      simpa using parseLoop_merge a ha s1 s2 segs2 args2 text values
  | cons s0 rest ih =>
      intro args1 hlen a ha s1 s2 segs2 args2 text values
      cases args1 with
      | nil => simp at hlen
      | cons a0 arest =>
          simp only [List.length_cons, Nat.succ.injEq] at hlen
          simp only [List.cons_append, parseLoop]
          cases hpa : processArg a0 values with
          | error e => rfl
          | ok tv => exact ih arest hlen a ha s1 s2 segs2 args2 _ tv.2

/-- C6: assembling a template containing an escape value with an absent
payload produces exactly the same query config as assembling the
template with that interpolation omitted entirely (its two surrounding
fragments merged). -/
theorem c6_empty_payload_is_omission (segs1 : List String) (s1 s2 : String)
    (segs2 : List String) (args1 : List Arg) (a : Arg) (args2 : List Arg)
    (hlen : args1.length = segs1.length) (ha : emptyEscape a = true) :
    parseTaggedTemplate (segs1 ++ s1 :: s2 :: segs2) (args1 ++ a :: args2) =
      parseTaggedTemplate (segs1 ++ (s1 ++ s2) :: segs2) (args1 ++ args2) := by
  unfold parseTaggedTemplate
  rw [parseLoop_omit segs1 args1 hlen a ha s1 s2 segs2 args2 "" []]

/-- Witness for C6 at a concrete template with an absent-payload
parameter escape. -/
theorem c6_witness :
    parseTaggedTemplate ["a", "b", "c"] [.raw (.num 1), .parameter none] =
      parseTaggedTemplate ["a", "bc"] [.raw (.num 1)] :=
  c6_empty_payload_is_omission ["a"] "b" "c" [] [.raw (.num 1)] (.parameter none) [] rfl rfl

/-- Characterization of the `AndDictionary` loop: it appends exactly the
defined values and one clause per defined key, numbered from the current
length of `values`. -/
theorem andDictLoop_spec :
    ∀ (d : List (String × JsVal)) (values : List JsVal) (acc : List String),
      andDictLoop d values acc =
        (values ++ (d.filter (fun kv => !isUndef kv.2)).map Prod.snd,
          acc ++ andClausesSpec values.length d) := by
  intro d
  induction d with
  | nil => intro values acc; simp [andDictLoop, andClausesSpec]
  | cons kv rest ih =>
      intro values acc
      obtain ⟨k, v⟩ := kv
      cases hu : isUndef v with
      | true => simp [andDictLoop, andClausesSpec, hu, ih]
      | false =>
          simp only [andDictLoop, andClausesSpec, hu, Bool.false_eq_true, if_false,
            Bool.not_false, ih, List.filter_cons, List.map_cons, List.length_append,
            List.length_singleton]
          simp

/-- Characterization of the `Dictionary` loop: it appends every value,
`undefined` included, and one clause per key. -/
theorem dictLoop_spec :
    ∀ (d : List (String × JsVal)) (values : List JsVal) (acc : List String),
      dictLoop d values acc =
        (values ++ d.map Prod.snd, acc ++ dictClausesSpec values.length d) := by
  intro d
  induction d with
  | nil => intro values acc; simp [dictLoop, dictClausesSpec]
  | cons kv rest ih =>
      intro values acc
      obtain ⟨k, v⟩ := kv
      simp only [dictLoop, dictClausesSpec, ih, List.map_cons, List.length_append,
        List.length_singleton]
      simp

/-- C10: `AndDictionary` skips keys whose value is `undefined` (no
clause, no pushed value), while `Dictionary` renders every key and
pushes every value, `undefined` included. -/
theorem c10_undefined_value_asymmetry (d : List (String × JsVal)) (values : List JsVal) :
    processArg (.andDictionary (some d)) values =
      .ok (String.join (andClausesSpec values.length d),
        values ++ (d.filter (fun kv => !isUndef kv.2)).map Prod.snd) ∧
    processArg (.dictionary (some d)) values =
      .ok (jsJoin ", " (dictClausesSpec values.length d), values ++ d.map Prod.snd) := by
  constructor
  · simp [processArg, andDictLoop_spec]
  · simp [processArg, dictLoop_spec]

/-- C7: for a classified database error, the wrapped status is 429
exactly when the classifier set one of the timeout or
too-many-connections flags, and 400 otherwise. -/
theorem c7_status_from_flags (e : DatabaseErrorInput) (isDatabaseError : Bool)
    (hclass : isDatabaseError = true ∨
      jsIncludes e.message "Query read timeout" = true ∨
      jsIncludes e.message "UNDEFINED_VALUE" = true)
    (r : GenerateDbErrorMessageResults) (hr : generateDbErrorMessage e = .ok r)
    (v : DBErrorView) (hv : mkDBError e isDatabaseError = .ok v) :
    (v.statusCode = 429 ↔ (r.isTimeoutError || r.isTooManyConnectionsError) = true) ∧
      (v.statusCode = 429 ∨ v.statusCode = 400) := by
  unfold mkDBError at hv
  have hcond : (!isDatabaseError && !jsIncludes e.message "Query read timeout" &&
      !jsIncludes e.message "UNDEFINED_VALUE") = false := by
    rcases hclass with h | h | h <;> simp [h]
  simp only [hcond, Bool.false_eq_true, if_false, hr, Except.ok.injEq] at hv
  subst hv
  cases hflag : (r.isTimeoutError || r.isTooManyConnectionsError) <;> simp [hflag]

/-- Witness for C7 at a concrete timeout error. -/
theorem c7_witness :
    ((⟨"Query timed out. Running query: SELECT 1", 429⟩ : DBErrorView).statusCode = 429 ↔
      (true || false) = true) ∧
      ((⟨"Query timed out. Running query: SELECT 1", 429⟩ : DBErrorView).statusCode = 429 ∨
        (⟨"Query timed out. Running query: SELECT 1", 429⟩ : DBErrorView).statusCode = 400) :=
  c7_status_from_flags
    { message := "Query read timeout", detail := none, table := none
      query := some "SELECT 1", parameters := none, args := .undefined }
    true (Or.inl rfl)
    { message := "Query timed out. Running query: SELECT 1"
      isTimeoutError := true, isTooManyConnectionsError := false } rfl
    ⟨"Query timed out. Running query: SELECT 1", 429⟩ rfl

/-- C2 counterexample: a message matching the insert-foreign-key rule
with `parameters` absent makes the classifier throw the property read
on `undefined`, instead of returning a result. -/
theorem c2_counterexample :
    generateDbErrorMessage
      { message := "insert or update on table \"books\" violates foreign key constraint \"fk\""
        detail := none, table := none, query := none, parameters := none
        args := .undefined } =
      .error (.typeError "Cannot read properties of undefined (reading 0)") := rfl

/-- C2 amended: the classifier never throws as long as `parameters` is
present; absence of `detail`, `table` or `query` never causes a throw. -/
theorem c2_amended_total_given_parameters (e : DatabaseErrorInput)
    (hp : e.parameters ≠ none) : ∃ r, generateDbErrorMessage e = .ok r := by
  obtain ⟨ps, hps⟩ : ∃ ps, e.parameters = some ps := by
    cases h : e.parameters with
    | none => exact absurd h hp
    | some ps => exact ⟨ps, rfl⟩
  unfold generateDbErrorMessage
  simp only [hps]
  repeat' split
  all_goals exact ⟨_, rfl⟩

/-- Witness for C2 amended at a concrete input with empty parameters. -/
theorem c2_amended_witness :
    ∃ r, generateDbErrorMessage
      { message := "insert or update on table \"books\" violates foreign key constraint \"fk\""
        detail := none, table := none, query := none, parameters := some []
        args := .undefined } = .ok r :=
  c2_amended_total_given_parameters _ (by simp)

/-- A successful `tooLongExec` implies the value-too-long prefix. -/
theorem tooLongExec_some_prefix {s dt : String} (h : tooLongExec s = some dt) :
    "value too long for type ".data.isPrefixOf s.data = true := by
  unfold tooLongExec at h
  cases hp : "value too long for type ".data.isPrefixOf s.data with
  | true => rfl
  | false => simp [hp] at h

/-- Two nonempty prefixes of the same list begin with the same
character. -/
theorem prefix_head_eq {a b : Char} {p q s : List Char}
    (hp : (a :: p).isPrefixOf s = true) (hq : (b :: q).isPrefixOf s = true) : a = b := by
  cases s with
  | nil => simp [List.isPrefixOf] at hp
  | cons c rest =>
      simp only [List.isPrefixOf, Bool.and_eq_true, beq_iff_eq] at hp hq
      rw [hp.1, hq.1]

/-- A cons list whose head differs from the head of a known prefix of
`s` is not itself a prefix of `s`. -/
theorem not_prefix_of_head_ne {a b : Char} {p q : List Char} {s : List Char} (hab : a ≠ b)
    (hq : (b :: q).isPrefixOf s = true) : (a :: p).isPrefixOf s = false := by
  cases hpa : (a :: p).isPrefixOf s with
  | false => rfl
  | true => exact absurd (prefix_head_eq hpa hq) hab

/-- C8: when the message matches the value-too-long rule but the query
does not match the secondary `(UPDATE|INSERT).+?"(.+?)"` pattern, the
classifier returns the complete default fallback result. -/
theorem c8_tooLong_query_mismatch_default (e : DatabaseErrorInput) (dt : String)
    (hm : tooLongExec e.message = some dt)
    (hq : analyzeQueryExec (e.query.getD "") = none) :
    generateDbErrorMessage e = .ok (defaultResults e) := by
  have hpre : ('v' :: "alue too long for type ".data).isPrefixOf e.message.data = true :=
    tooLongExec_some_prefix hm
  have h1 : ¬(e.message = "sorry, too many clients already") := by
    intro h; rw [h] at hpre; exact absurd hpre (by decide)
  have h2 : ¬(e.message = "Query read timeout") := by
    intro h; rw [h] at hpre; exact absurd hpre (by decide)
  have h3 : deleteFkExec e.message = none := by
    have hf : ("update or delete on table \"".data.isPrefixOf e.message.data) = false :=
      not_prefix_of_head_ne (by decide) hpre
    unfold deleteFkExec
    simp [hf]
  have h4 : insertFkExec e.message = none := by
    have hf : ("insert or update on table \"".data.isPrefixOf e.message.data) = false :=
      not_prefix_of_head_ne (by decide) hpre
    unfold insertFkExec
    simp [hf]
  have h5 : duplicateKeyExec e.message = none := by
    have hf : ("duplicate key value violates unique constraint \"".data.isPrefixOf
        e.message.data) = false := not_prefix_of_head_ne (by decide) hpre
    unfold duplicateKeyExec
    simp [hf]
  unfold generateDbErrorMessage
  simp [h1, h2, h3, h4, h5, hm, hq]

/-- Witness for C8 at a concrete value-too-long error whose query text
lacks the secondary pattern. -/
theorem c8_witness :
    generateDbErrorMessage
      { message := "value too long for type character varying(5)"
        detail := none, table := none, query := some "no verbs here"
        parameters := none, args := .undefined } =
      .ok (defaultResults
        { message := "value too long for type character varying(5)"
          detail := none, table := none, query := some "no verbs here"
          parameters := none, args := .undefined }) :=
  c8_tooLong_query_mismatch_default _ "character varying(5)" rfl rfl

/-- Splitting a separator-free list yields the single token. -/
theorem jsSplit_no_sep {sep : Char} :
    ∀ l : List Char, sep ∉ l → jsSplit sep l = [l] := by
  intro l
  induction l with
  | nil => intro _; rfl
  | cons c rest ih =>
      intro h
      have hc : ¬(c = sep) := fun hc => h (hc ▸ List.mem_cons_self c rest)
      have hr : sep ∉ rest := fun hr => h (List.mem_cons_of_mem c hr)
      simp [jsSplit, ih hr, if_neg hc]

/-- Splitting past a separator-free token followed by a separator peels
off that token. -/
theorem jsSplit_append_sep {sep : Char} :
    ∀ (x t : List Char), sep ∉ x →
      jsSplit sep (x ++ sep :: t) = x :: jsSplit sep t := by
  intro x
  induction x with
  | nil => intro t _; simp [jsSplit]
  | cons c x' ih =>
      intro t h
      have hc : ¬(c = sep) := fun hc => h (hc ▸ List.mem_cons_self c x')
      have hx : sep ∉ x' := fun hx => h (List.mem_cons_of_mem c hx)
      simp [jsSplit, ih t hx, if_neg hc]

/-- Splitting the separator-join of nonempty, separator-free tokens
recovers the tokens. -/
theorem jsSplit_joinChar {sep : Char} :
    ∀ parts : List (List Char), parts ≠ [] → (∀ w ∈ parts, sep ∉ w) →
      jsSplit sep (joinChar sep parts) = parts := by
  intro parts
  induction parts with
  | nil => intro h _; exact absurd rfl h
  | cons x rest ih =>
      intro _ hfree
      cases rest with
      | nil => exact jsSplit_no_sep x (hfree x (List.mem_cons_self x []))
      | cons y rest' =>
          have hx : sep ∉ x := hfree x (List.mem_cons_self x _)
          have hrest : ∀ w ∈ y :: rest', sep ∉ w := fun w hw =>
            hfree w (List.mem_cons_of_mem x hw)
          simp only [joinChar, jsSplit_append_sep x _ hx, ih (by simp) hrest]

/-- C3 counterexample: a query whose leading newline is directly
attached to the verb keeps the newline in the extracted method token,
because the code splits on the space character only. -/
theorem c3_counterexample :
    getQueryMethod "\nSELECT foo" = some "\nSELECT" ∧
      '\n' ∈ ("\nSELECT" : String).data :=
  ⟨rfl, by decide⟩

/-- C3 amended: the method token is obtained by splitting the query on
the space character (not on all whitespace), discarding tokens of length
at most one, and taking the first remaining token verbatim; hence
leading whitespace is stripped exactly when it is space-separated from
the verb, and the space-free verb token is returned verbatim. -/
theorem c3_amended_space_split (junk : List (List Char)) (verb : List Char)
    (rest : List (List Char))
    (hjunk : ∀ w ∈ junk, w.length ≤ 1 ∧ ' ' ∉ w)
    (hverb : 2 ≤ verb.length) (hverbsp : ' ' ∉ verb)
    (hrest : ∀ w ∈ rest, ' ' ∉ w) :
    getQueryMethod ⟨joinChar ' ' (junk ++ verb :: rest)⟩ = some ⟨verb⟩ := by
  unfold getQueryMethod
  have hne : junk ++ verb :: rest ≠ [] := by simp
  have hfree : ∀ w ∈ junk ++ verb :: rest, ' ' ∉ w := by
    intro w hw
    rcases List.mem_append.mp hw with h | h
    · exact (hjunk w h).2
    · rcases List.mem_cons.mp h with h | h
      · exact h ▸ hverbsp
      · exact hrest w h
  have hdata : (⟨joinChar ' ' (junk ++ verb :: rest)⟩ : String).data =
      joinChar ' ' (junk ++ verb :: rest) := rfl
  rw [hdata, jsSplit_joinChar _ hne hfree, List.map_append, List.filter_append]
  have hjunkfilter :
      ((junk.map fun l => (⟨l⟩ : String)).filter fun s => decide (s.length > 1)) = [] := by
    rw [List.filter_eq_nil_iff]
    intro s hs
    rcases List.mem_map.mp hs with ⟨w, hw, hws⟩
    have : s.length = w.length := by rw [← hws]; rfl
    simp only [this, decide_eq_true_eq, not_lt]
    exact (hjunk w hw).1
  rw [hjunkfilter]
  have hverbln : decide ((⟨verb⟩ : String).length > 1) = true := by
    have : (⟨verb⟩ : String).length = verb.length := rfl
    simp only [this, decide_eq_true_eq]
    omega
  rw [List.nil_append, List.map_cons, List.filter_cons, if_pos hverbln]
  rfl

/-- Witness for C3 amended: a query formatted with a newline, a space
and the verb has the bare verb extracted. -/
theorem c3_amended_witness :
    getQueryMethod ⟨joinChar ' ' ([['\n']] ++ "SELECT".data :: ["foo".data])⟩ =
      some ⟨"SELECT".data⟩ :=
  c3_amended_space_split [['\n']] "SELECT".data ["foo".data]
    (by decide) (by decide) (by decide) (by decide)

/-- The fuel of `natCharsAux` is irrelevant once sufficient. -/
theorem natCharsAux_congr :
    ∀ (f1 f2 n : Nat), n < f1 → n < f2 → natCharsAux f1 n = natCharsAux f2 n := by
  intro f1
  induction f1 with
  | zero => intro f2 n h1 _; omega
  | succ f ih =>
      intro f2 n h1 h2
      cases f2 with
      | zero => omega
      | succ g =>
          by_cases h : n < 10
          · simp [natCharsAux, h]
          · have hdiv : n / 10 < n := Nat.div_lt_self (by omega) (by omega)
            simp only [natCharsAux, h, if_false]
            rw [ih g (n / 10) (by omega) (by omega)]

/-- Decimal digits of a small number. -/
theorem natChars_lt10 {n : Nat} (h : n < 10) : natChars n = [digitChar n] := by
  unfold natChars natCharsAux
  simp [h]

/-- Recursive unfolding of the decimal digits of a large number. -/
theorem natChars_ge10 {n : Nat} (h : 10 ≤ n) :
    natChars n = natChars (n / 10) ++ [digitChar (n % 10)] := by
  have hdiv : n / 10 < n := Nat.div_lt_self (by omega) (by omega)
  unfold natChars
  rw [show natCharsAux (n + 1) n =
      natCharsAux n (n / 10) ++ [digitChar (n % 10)] from by
    simp [natCharsAux, Nat.not_lt.mpr h]]
  rw [natCharsAux_congr n (n / 10 + 1) (n / 10) (by omega) (by omega)]

/-- A digit character is a digit. -/
theorem digitChar_isDigit {n : Nat} (h : n < 10) : (digitChar n).isDigit = true := by
  interval_cases n <;> decide

/-- Decoding a digit character recovers the digit. -/
theorem digitChar_decode {n : Nat} (h : n < 10) : (digitChar n).toNat - 48 = n := by
  interval_cases n <;> decide

/-- Every character of a decimal rendering is a digit. -/
theorem natChars_digits : ∀ n : Nat, ∀ c ∈ natChars n, c.isDigit = true := by
  intro n
  induction n using Nat.strong_induction_on with
  | _ n ih =>
      by_cases h : n < 10
      · rw [natChars_lt10 h]
        intro c hc
        simp only [List.mem_singleton] at hc
        subst hc
        exact digitChar_isDigit h
      · rw [natChars_ge10 (by omega)]
        intro c hc
        rcases List.mem_append.mp hc with h1 | h1
        · exact ih (n / 10) (Nat.div_lt_self (by omega) (by omega)) c h1
        · simp only [List.mem_singleton] at h1
          subst h1
          exact digitChar_isDigit (Nat.mod_lt _ (by omega))

/-- A decimal rendering is never empty. -/
theorem natChars_ne_nil (n : Nat) : natChars n ≠ [] := by
  by_cases h : n < 10
  · rw [natChars_lt10 h]; simp
  · rw [natChars_ge10 (by omega)]; simp

/-- Folding the digit-accumulation step over a decimal rendering
computes the rendered number, shifted under the accumulator. -/
theorem digitsVal_natChars :
    ∀ n acc : Nat, digitsVal (natChars n) acc = acc * 10 ^ (natChars n).length + n := by
  intro n
  induction n using Nat.strong_induction_on with
  | _ n ih =>
      intro acc
      by_cases h : n < 10
      · rw [natChars_lt10 h]
        simp only [digitsVal, List.foldl_cons, List.foldl_nil, List.length_singleton]
        rw [digitChar_decode h]
        ring
      · rw [natChars_ge10 (by omega)]
        simp only [digitsVal, List.foldl_append, List.foldl_cons, List.foldl_nil,
          List.length_append, List.length_singleton]
        have hrec := ih (n / 10) (Nat.div_lt_self (by omega) (by omega)) acc
        simp only [digitsVal] at hrec
        rw [hrec, digitChar_decode (Nat.mod_lt _ (by omega))]
        have hmod := Nat.div_add_mod n 10
        rw [pow_succ]
        ring_nf
        omega

/-- Scanning a run of digits accumulates their value. -/
theorem phsAux_digits :
    ∀ (ds : List Char), (∀ c ∈ ds, c.isDigit = true) → ∀ (b : List Char) (m : Nat),
      phsAux (.num m) (ds ++ b) = phsAux (.num (digitsVal ds m)) b := by
  intro ds
  induction ds with
  | nil => intro _ b m; rfl
  | cons c ds' ih =>
      intro hd b m
      have hc : c.isDigit = true := hd c (List.mem_cons_self c ds')
      simp only [List.cons_append, phsAux, hc, if_true, List.append_eq]
      rw [ih (fun x hx => hd x (List.mem_cons_of_mem c hx)) b]
      rfl

/-- Scanning a decimal rendering from the after-dollar state enters the
number state with the rendered value. -/
theorem phsAux_dollar_natChars (n : Nat) (b : List Char) :
    phsAux .dollar (natChars n ++ b) = phsAux (.num n) b := by
  cases hnc : natChars n with
  | nil => exact absurd hnc (natChars_ne_nil n)
  | cons c cs =>
      have hall : ∀ x ∈ natChars n, x.isDigit = true := natChars_digits n
      have hc : c.isDigit = true := by
        apply hall; rw [hnc]; exact List.mem_cons_self c cs
      have hcs : ∀ x ∈ cs, x.isDigit = true := by
        intro x hx; apply hall; rw [hnc]; exact List.mem_cons_of_mem c hx
      simp only [List.cons_append, phsAux, hc, if_true, List.append_eq]
      rw [phsAux_digits cs hcs b]
      have hval : digitsVal cs (c.toNat - 48) = n := by
        have h0 := digitsVal_natChars n 0
        rw [hnc] at h0
        simpa [digitsVal] using h0
      rw [hval]

/-- Leaving the number state before a non-digit flushes the number. -/
theorem phsAux_num_flush (n : Nat) (b : List Char) (hb : noLeadDigit b = true) :
    phsAux (.num n) b = n :: phsAux .start b := by
  cases b with
  | nil => rfl
  | cons c r =>
      have hc : c.isDigit = false := by
        simp only [noLeadDigit, Bool.not_eq_true'] at hb
        exact hb
      by_cases hd : c = '$'
      · subst hd; simp [phsAux, hc]
      · simp [phsAux, hc, hd]

/-- A placeholder followed by non-digit text scans to its number. -/
theorem phsAux_placeholder (n : Nat) (b : List Char) (hb : noLeadDigit b = true) :
    phsAux .start ('$' :: (natChars n ++ b)) = n :: phsAux .start b := by
  have h1 : phsAux .start ('$' :: (natChars n ++ b)) = phsAux .dollar (natChars n ++ b) := by
    simp [phsAux]
  rw [h1, phsAux_dollar_natChars, phsAux_num_flush n b hb]

/-- Dollar-free text is transparent to the scanner in the start state. -/
theorem phsAux_start_skip :
    ∀ (l : List Char), (∀ c ∈ l, ¬(c = '$')) → ∀ b : List Char,
      phsAux .start (l ++ b) = phsAux .start b := by
  intro l
  induction l with
  | nil => intro _ b; rfl
  | cons c r ih =>
      intro h b
      have hc : ¬(c = '$') := h c (List.mem_cons_self c r)
      simp only [List.cons_append, phsAux, if_neg hc]
      exact ih (fun x hx => h x (List.mem_cons_of_mem c hx)) b

/-- Leading-digit freedom is preserved by prepending a
leading-digit-free list. -/
theorem noLeadDigit_append {x b : List Char} (hx : noLeadDigit x = true)
    (hb : noLeadDigit b = true) : noLeadDigit (x ++ b) = true := by
  cases x with
  | nil => simpa using hb
  | cons c r => simpa [noLeadDigit] using hx

/-- Character data of a `$n` placeholder string. -/
theorem param_piece_data (n : Nat) : ("$" ++ jsNumStr n).data = '$' :: natChars n := by
  rw [String.data_append]; rfl

/-- Characterization of the `ArrayParameters` loop: it appends the
array elements to `values` and emits consecutively numbered
placeholders starting after the already-bound values. -/
theorem arrayParamsLoop_spec :
    ∀ (l values : List JsVal) (acc : List String),
      arrayParamsLoop l values acc =
        (values ++ l,
          acc ++ (List.range' (values.length + 1) l.length).map (fun i => "$" ++ jsNumStr i)) := by
  intro l
  induction l with
  | nil => intro values acc; simp [arrayParamsLoop]
  | cons v rest ih =>
      intro values acc
      simp only [arrayParamsLoop, ih, List.length_cons, List.length_append,
        List.length_singleton, List.range'_succ, List.map_cons]
      simp [List.append_assoc]

/-- Scanning a comma-joined run of placeholders numbered from `s`
followed by a closing bracket collects exactly those numbers. -/
theorem phs_join_placeholders :
    ∀ (k s : Nat) (b : List Char),
      phsAux .start
        ((jsJoin ", " ((List.range' s k).map (fun i => "$" ++ jsNumStr i))).data ++ ']' :: b) =
        List.range' s k ++ phsAux .start b := by
  intro k
  induction k with
  | zero =>
      intro s b
      simp only [List.range'_zero, List.map_nil, jsJoin]
      show phsAux .start ([] ++ ']' :: b) = [] ++ phsAux .start b
      rw [List.nil_append, List.nil_append]
      simp [phsAux]
  | succ k' ih =>
      intro s b
      rw [List.range'_succ, List.map_cons]
      cases k' with
      | zero =>
          simp only [List.range'_zero, List.map_nil, jsJoin]
          rw [param_piece_data, List.cons_append]
          rw [phsAux_placeholder s (']' :: b) (by rfl)]
          simp [phsAux]
      | succ k'' =>
          have hjoin : jsJoin ", " (("$" ++ jsNumStr s) ::
              (List.range' (s + 1) (k'' + 1)).map (fun i => "$" ++ jsNumStr i)) =
              ("$" ++ jsNumStr s) ++ ", " ++
                jsJoin ", " ((List.range' (s + 1) (k'' + 1)).map (fun i => "$" ++ jsNumStr i)) := by
            rw [List.range'_succ, List.map_cons]
            rfl
          rw [hjoin, String.data_append, String.data_append, param_piece_data]
          simp only [List.cons_append, List.append_assoc, List.nil_append]
          rw [phsAux_placeholder s (',' :: ' ' ::
            ((jsJoin ", " ((List.range' (s + 1) (k'' + 1)).map
              (fun i => "$" ++ jsNumStr i))).data ++ ']' :: b)) (by rfl)]
          have hskip := phsAux_start_skip [',', ' '] (by decide)
            ((jsJoin ", " ((List.range' (s + 1) (k'' + 1)).map
              (fun i => "$" ++ jsNumStr i))).data ++ ']' :: b)
          rw [show ([',', ' '] ++ ((jsJoin ", " ((List.range' (s + 1) (k'' + 1)).map
              (fun i => "$" ++ jsNumStr i))).data ++ ']' :: b)) = ',' :: ' ' ::
            ((jsJoin ", " ((List.range' (s + 1) (k'' + 1)).map
              (fun i => "$" ++ jsNumStr i))).data ++ ']' :: b) from rfl] at hskip
          rw [hskip, ih (s + 1) b]

/-- Scanning the full `ARRAY[...]` piece collects its placeholder
numbers and continues in the start state. -/
theorem phs_array_piece (k s : Nat) (b : List Char) :
    phsAux .start
      (("ARRAY[" ++ jsJoin ", " ((List.range' s k).map (fun i => "$" ++ jsNumStr i)) ++ "]").data
        ++ b) = List.range' s k ++ phsAux .start b := by
  rw [String.data_append, String.data_append]
  have hb : ("]" : String).data = [']'] := rfl
  rw [hb, List.append_assoc, List.append_assoc]
  rw [phsAux_start_skip ("ARRAY[" : String).data (by decide)]
  rw [show ([']'] ++ b) = ']' :: b from rfl]
  exact phs_join_placeholders k s b

/-- A clean fragment is dollar-free. -/
theorem cleanFrag_no_dollar {s : String} (h : cleanFrag s = true) :
    ∀ c ∈ s.data, ¬(c = '$') := by
  have h' := h
  simp only [cleanFrag, Bool.and_eq_true, List.all_eq_true, decide_eq_true_eq] at h'
  exact fun c hc => h'.1 c hc

/-- A clean fragment does not begin with a digit. -/
theorem cleanFrag_noLeadDigit {s : String} (h : cleanFrag s = true) :
    noLeadDigit s.data = true := by
  have h' := h
  simp only [cleanFrag, Bool.and_eq_true] at h'
  exact h'.2

/-- Concatenation of consecutive unit-step ranges. -/
theorem range'_add_append (s m n : Nat) :
    List.range' s m ++ List.range' (s + m) n = List.range' s (m + n) := by
  simp [Nat.add_comm m n]

/-- Main accumulation invariant for gap-free interpolations: over clean
fragments and `Parameter`/`ArrayParameters` interpolations, the loop
succeeds, appends some `extra` values, and the appended text scans to
the consecutive placeholder numbers following the already-bound
values. -/
theorem parseLoop_gapFree :
    ∀ (segs : List String) (args : List Arg),
      (∀ s ∈ segs, cleanFrag s = true) → (∀ a ∈ args, gapFreeArg a = true) →
      ∀ (text : String) (values : List JsVal),
        ∃ (t : String) (extra : List JsVal) (T : List Char),
          parseLoop segs args text values = .ok (t, values ++ extra) ∧
          t.data = text.data ++ T ∧
          noLeadDigit T = true ∧
          ∀ b : List Char, noLeadDigit b = true →
            phsAux .start (T ++ b) =
              List.range' (values.length + 1) extra.length ++ phsAux .start b := by
  intro segs
  induction segs with
  | nil =>
      intro args _ _ text values
      exact ⟨text, [], [], by simp [parseLoop], by simp, rfl,
        fun b _ => by simp⟩
  | cons s rest ih =>
      intro args hsegs hargs text values
      have hs : cleanFrag s = true := hsegs s (List.mem_cons_self _ _)
      have hrest : ∀ x ∈ rest, cleanFrag x = true := fun x hx =>
        hsegs x (List.mem_cons_of_mem _ hx)
      cases args with
      | nil =>
          obtain ⟨t, extra, T, h1, h2, h3, h4⟩ :=
            ih [] hrest (by intro a ha; cases ha) (text ++ s) values
          refine ⟨t, extra, s.data ++ T, ?_, ?_, ?_, ?_⟩
          · simpa [parseLoop] using h1
          · rw [h2, String.data_append, List.append_assoc]
          · exact noLeadDigit_append (cleanFrag_noLeadDigit hs) h3
          · intro b hb
            rw [List.append_assoc, phsAux_start_skip s.data (cleanFrag_no_dollar hs),
              h4 b hb]
      | cons a arest =>
          have hga : gapFreeArg a = true := hargs a (List.mem_cons_self _ _)
          have harest : ∀ x ∈ arest, gapFreeArg x = true := fun x hx =>
            hargs x (List.mem_cons_of_mem _ hx)
          cases a with
          | raw v => simp [gapFreeArg] at hga
          | andDictionary o => simp [gapFreeArg] at hga
          | dictionary o => simp [gapFreeArg] at hga
          | identifier o => simp [gapFreeArg] at hga
          | keysAndValues o => simp [gapFreeArg] at hga
          | keysAndValuesWithExpiresIn o => simp [gapFreeArg] at hga
          | parameter o =>
              cases o with
              | none => simp [gapFreeArg] at hga
              | some v =>
                  have hstep : parseLoop (s :: rest) (Arg.parameter (some v) :: arest)
                      text values = parseLoop rest arest
                        (text ++ s ++ ("$" ++ jsNumStr (values.length + 1)))
                        (values ++ [v]) := by
                    simp [parseLoop, processArg]
                  obtain ⟨t, extra, T, h1, h2, h3, h4⟩ := ih arest hrest harest
                    (text ++ s ++ ("$" ++ jsNumStr (values.length + 1))) (values ++ [v])
                  refine ⟨t, v :: extra, s.data ++ ('$' :: natChars (values.length + 1) ++ T),
                    ?_, ?_, ?_, ?_⟩
                  · rw [hstep, h1]
                    simp
                  · rw [h2, String.data_append, String.data_append, param_piece_data]
                    simp [List.append_assoc]
                  · refine noLeadDigit_append (cleanFrag_noLeadDigit hs) ?_
                    rfl
                  · intro b hb
                    rw [List.append_assoc,
                      phsAux_start_skip s.data (cleanFrag_no_dollar hs)]
                    rw [List.append_assoc, List.cons_append]
                    rw [phsAux_placeholder (values.length + 1) (T ++ b)
                      (noLeadDigit_append h3 hb)]
                    rw [h4 b hb]
                    simp [List.range'_succ]
          | arrayParameters o =>
              cases o with
              | none => simp [gapFreeArg] at hga
              | some l =>
                  have hstep : parseLoop (s :: rest) (Arg.arrayParameters (some l) :: arest)
                      text values = parseLoop rest arest
                        (text ++ s ++ ("ARRAY[" ++ jsJoin ", "
                          ((List.range' (values.length + 1) l.length).map
                            (fun i => "$" ++ jsNumStr i)) ++ "]"))
                        (values ++ l) := by
                    simp [parseLoop, processArg, arrayParamsLoop_spec]
                  obtain ⟨t, extra, T, h1, h2, h3, h4⟩ := ih arest hrest harest
                    (text ++ s ++ ("ARRAY[" ++ jsJoin ", "
                      ((List.range' (values.length + 1) l.length).map
                        (fun i => "$" ++ jsNumStr i)) ++ "]")) (values ++ l)
                  refine ⟨t, l ++ extra, s.data ++
                    (("ARRAY[" ++ jsJoin ", " ((List.range' (values.length + 1) l.length).map
                      (fun i => "$" ++ jsNumStr i)) ++ "]").data ++ T), ?_, ?_, ?_, ?_⟩
                  · rw [hstep, h1]
                    simp
                  · rw [h2, String.data_append, String.data_append]
                    simp [List.append_assoc]
                  · refine noLeadDigit_append (cleanFrag_noLeadDigit hs) ?_
                    rfl
                  · intro b hb
                    rw [List.append_assoc,
                      phsAux_start_skip s.data (cleanFrag_no_dollar hs)]
                    rw [List.append_assoc]
                    rw [phs_array_piece l.length (values.length + 1) (T ++ b)]
                    rw [h4 b hb]
                    rw [show (values ++ l).length + 1 = values.length + 1 + l.length from by
                      simp [List.length_append]; ring]
                    rw [← List.append_assoc, range'_add_append]
                    rw [show l.length + extra.length = (l ++ extra).length from
                      (List.length_append l extra).symm]

/-- C1 counterexample: a `Parameter` followed by a `KeysAndValues`
interpolation yields the placeholder sequence `$1`, `$1` over two bound
values, so placeholder numbering across the whole query is neither
strictly increasing nor gap-free: `KeysAndValues` numbers its
placeholders locally from one, ignoring previously bound values. -/
theorem c1_counterexample :
    parseTaggedTemplate ["a", "b", "c"]
      [.parameter (some (.num 7)), .keysAndValues (some (.inl [("k", .num 8)]))] =
      .ok ⟨"a$1b(\"k\") VALUES ($1)c", some [.num 7, .num 8]⟩ ∧
    phs ("a$1b(\"k\") VALUES ($1)c" : String).data = [1, 1] ∧
    [1, 1] ≠ List.range' 1 2 ∧ ¬List.Chain' (fun x y => x < y) [1, 1] :=
  ⟨rfl, rfl, by decide, by simp⟩

/-- C1 amended: over clean fragments, for every valid assemble input all
of whose interpolations are `Parameter` or `ArrayParameters` (the kinds
that number placeholders by the current length of `values` after the
push), the placeholders of the assembled text are exactly `1, 2, ...`
up to the number of bound values — strictly increasing and gap-free.
`KeysAndValues` and `KeysAndValuesWithExpiresIn` number their
placeholders locally from one and break this property as soon as any
value precedes them. -/
theorem c1_amended_gap_free (strings : List String) (args : List Arg)
    (hsegs : ∀ s ∈ strings, cleanFrag s = true)
    (hargs : ∀ a ∈ args, gapFreeArg a = true)
    (_hlen : strings.length = args.length + 1)
    (cfg : QueryConfig) (h : parseTaggedTemplate strings args = .ok cfg) :
    phs cfg.text.data = List.range' 1 ((cfg.values.getD []).length) := by
  obtain ⟨t, extra, T, h1, h2, h3, h4⟩ := parseLoop_gapFree strings args hsegs hargs "" []
  unfold parseTaggedTemplate at h
  rw [h1] at h
  simp only [List.nil_append, Except.ok.injEq] at h
  subst h
  have hT : t.data = T := by simpa using h2
  have hphs : phs t.data = List.range' 1 extra.length := by
    have h0 := h4 [] rfl
    simp only [List.append_nil] at h0
    rw [phs, hT, h0]
    simp [phsAux]
  cases extra with
  | nil => simpa using hphs
  | cons v rest => simpa using hphs

/-- Witness for C1 amended at a concrete mixed template of `Parameter`
and `ArrayParameters` interpolations. -/
theorem c1_amended_witness :
    phs ((⟨"SELECT a WHERE x = $1 AND y = ANY(ARRAY[$2, $3])",
        some [JsVal.num 5, JsVal.num 6, JsVal.num 7]⟩ : QueryConfig).text).data =
      List.range' 1 (((⟨"SELECT a WHERE x = $1 AND y = ANY(ARRAY[$2, $3])",
        some [JsVal.num 5, JsVal.num 6, JsVal.num 7]⟩ : QueryConfig).values.getD []).length) :=
  c1_amended_gap_free ["SELECT a WHERE x = ", " AND y = ANY(", ")"]
    [.parameter (some (.num 5)), .arrayParameters (some [.num 6, .num 7])]
    (by decide) (by decide) (by decide) _ rfl

end PgEnhanced
